import Mathlib

/-!
Verification development for the media-studio image compositing engine.

Each definition below is a shallow embedding of a function from the
repository (paths given in the doc comments).  Machine integers are
modelled as `Nat`/`Int`.  Python float division of pixel counts is
modelled exactly: comparisons of ratios are cross-multiplied (for the
positive denominators that occur, `tw / th > w / h ↔ tw * h > w * th`),
and Python `int(...)` truncation of a non-negative real quotient is the
floor, i.e. natural division; bridging lemmas (`aspect_gt_iff`,
`floor_width_div_aspect`, `floor_height_mul_aspect`) record the exact
correspondence with the `ℚ`-valued expressions of the source.
-/

namespace MediaStudio

/-- A pixel size, the geometric shadow of a PIL image
(`backend/services/image_processor.py`).  Pixel resampling content is
modelled separately; the cropping claims concern geometry only. -/
structure Size where
  width : ℕ
  height : ℕ
deriving DecidableEq, Repr

/-- The crop box `(left, upper, right, lower)` computed by `smart_crop`
(`backend/services/image_processor.py` lines 49-61).  The source compares
`target_ratio = target_width / target_height` with `img_ratio =
img.width / img.height` (real division, here cross-multiplied), takes
`new_height = int(img.width / target_ratio)` respectively `new_width =
int(img.height * target_ratio)` (truncation of a non-negative quotient
= natural division), and `offset = (img.height - new_height) // 2`
(floor division of non-negative integers). -/
def smartCropBox (w h tw th : ℕ) : ℕ × ℕ × ℕ × ℕ :=
  if tw * h > w * th then
    let newHeight : ℕ := w * th / tw
    let offset : ℕ := (h - newHeight) / 2
    (0, offset, w, offset + newHeight)
  else
    let newWidth : ℕ := h * tw / th
    let offset : ℕ := (w - newWidth) / 2
    (offset, 0, offset + newWidth, h)

/-- Size of the image produced by `PIL.Image.crop(box)` for an in-bounds
box `(left, upper, right, lower)`: `(right - left, lower - upper)`. -/
def cropSize (box : ℕ × ℕ × ℕ × ℕ) : Size :=
  ⟨box.2.2.1 - box.1, box.2.2.2 - box.2.1⟩

/-- `img.resize((target_width, target_height), LANCZOS)` always yields an
image of exactly the requested size
(`backend/services/image_processor.py` line 64). -/
def resizeTo (i : Size) (tw th : ℕ) : Size :=
  let _ := i
  ⟨tw, th⟩

/-- Geometry of `smart_crop` (`backend/services/image_processor.py` lines
43-64): crop to `smartCropBox`, then resize to the exact target. -/
def smartCrop (i : Size) (tw th : ℕ) : Size :=
  resizeTo (cropSize (smartCropBox i.width i.height tw th)) tw th

/-- An RGBA sample: channel values are 0..255 in PIL; the claims never
need the upper bound as an invariant. -/
structure Rgba where
  r : ℕ
  g : ℕ
  b : ℕ
  a : ℕ
deriving DecidableEq, Repr

/-- The two PIL color modes the compositing code moves between. -/
inductive Mode
  | rgb
  | rgba
deriving DecidableEq, Repr

/-- Pixel-level model of a PIL image: mode, size, and a total pixel
function (samples outside the size are never consulted by the claims). -/
structure Img where
  mode : Mode
  width : ℕ
  height : ℕ
  pix : ℕ → ℕ → Rgba

/-- `image.convert("RGBA")`: an RGB image gains a fully opaque alpha
channel; an RGBA image is returned with the same samples. -/
def convertRGBA (i : Img) : Img :=
  { i with
    mode := Mode.rgba
    pix := fun x y =>
      if i.mode = Mode.rgb then { i.pix x y with a := 255 } else i.pix x y }

/-- `image.convert("RGB")`: the alpha channel is dropped; the stored
color samples are kept and the image becomes opaque. -/
def convertRGB (i : Img) : Img :=
  { i with
    mode := Mode.rgb
    pix := fun x y => { i.pix x y with a := 255 } }

/-- `Image.new('RGBA', size, (0, 0, 0, 0))`: a fully transparent canvas
(`backend/services/image_processor.py` line 151). -/
def blankRGBA (w h : ℕ) : Img :=
  { mode := Mode.rgba, width := w, height := h, pix := fun _ _ => ⟨0, 0, 0, 0⟩ }

/-- The masking step of `remove_white_background`
(`backend/services/logo_handler.py` lines 37-43): a pixel whose R, G and
B are all strictly above `threshold` gets alpha 0 (`np.where(white_mask,
0, a)`); every other pixel keeps its alpha. -/
def removeWhiteMask (threshold : ℕ) (i : Img) : Img :=
  { i with
    pix := fun x y =>
      let p := i.pix x y
      if threshold < p.r ∧ threshold < p.g ∧ threshold < p.b then
        { p with a := 0 }
      else p }

/-- Clamp an integer sample coordinate into `[0, n-1]` (edge extension
at the image border). -/
def clampCoord (n : ℕ) (i : ℤ) : ℕ :=
  (min (max 0 i) ((n : ℤ) - 1)).toNat

/-- Modelled from the spec: "apply a Gaussian blur of radius `feather`
pixels to the alpha channel alone (not the color channels)".
`ImageFilter.GaussianBlur` (`backend/services/logo_handler.py` line 52)
is PIL library code, not code of this repository; it is modelled as a
normalized `(2r+1) × (2r+1)` box filter with clamp-to-edge boundary and
truncating division: each output alpha is an average of the alphas in
the pixel's neighbourhood, and the color channels are untouched.  Every
claim settled against it uses only that blurring mixes the alphas of
neighbouring pixels, which any faithful model of a Gaussian blur of
positive radius shares. -/
def blurAlpha (radius : ℕ) (i : Img) : Img :=
  { i with
    pix := fun x y =>
      let k := 2 * radius + 1
      let total := (List.range k).foldl
        (fun acc dy =>
          (List.range k).foldl
            (fun acc2 dx =>
              acc2 + (i.pix (clampCoord i.width ((x : ℤ) + (dx : ℤ) - (radius : ℤ)))
                            (clampCoord i.height ((y : ℤ) + (dy : ℤ) - (radius : ℤ)))).a)
            acc)
        0
      { i.pix x y with a := total / (k * k) } }

/-- `remove_white_background` (`backend/services/logo_handler.py` lines
13-55): convert to RGBA, zero the alpha of near-white pixels, and, when
`feather > 0`, blur the alpha channel alone. -/
def removeWhiteBackground (threshold feather : ℕ) (image : Img) : Img :=
  let converted := convertRGBA image
  let result := removeWhiteMask threshold converted
  if 0 < feather then blurAlpha feather result else result

/-- Step 3 of `add_image_logo` (`backend/services/logo_handler.py` lines
189-193): `a.point(lambda x: int(x * opacity))` multiplies every alpha
sample by the opacity factor and truncates (`int(...)` truncates toward
zero; the product is non-negative, so this is the floor); the color
channels are merged back unchanged. -/
def scaleAlpha (opacity : ℚ) (i : Img) : Img :=
  { i with
    pix := fun x y =>
      let p := i.pix x y
      { p with a := (⌊(p.a : ℚ) * opacity⌋).toNat } }

/-- `total_text_height` (`backend/services/image_processor.py` lines
175-181): the measured title height, plus the measured CTA height plus a
30px gap when a CTA is present (`if cta:`), plus 40px padding.  Measured
text heights come from PIL font metrics and are parameters here; a
present CTA is `some` of its measured height. -/
def totalTextHeight (titleHeight : ℕ) (ctaMeasured : Option ℕ) : ℕ :=
  let ctaHeight : ℕ :=
    match ctaMeasured with
    | some ch => ch + 30
    | none => 0
  titleHeight + ctaHeight + 40

/-- `y_start` (`backend/services/image_processor.py` lines 183-188).
`height * 0.15` and `height * 0.85 - total_text_height` are float
expressions modelled exactly in `ℚ`; the `else` branch - which catches
`center` and every unrecognized anchor - is the integer expression
`(height - total_text_height) // 2`, Python floor division, modelled by
`Int.fdiv`. -/
def yStart (height : ℕ) (tth : ℕ) (position : String) : ℚ :=
  if position = "top" then (height : ℚ) * (15 / 100)
  else if position = "bottom" then (height : ℚ) * (85 / 100) - (tth : ℚ)
  else ((((height : ℤ) - (tth : ℤ)).fdiv 2 : ℤ) : ℚ)

/-- Corner placement shared by `ImageProcessor.add_logo`
(`backend/services/image_processor.py` lines 75-90) and `add_image_logo`
(`backend/services/logo_handler.py` lines 195-206): a `positions` table
with 40px padding, looked up with `positions.get(position,
positions["top-right"])`, so an unrecognized corner falls back to
`top-right`. -/
def logoPlacement (w h lw lh : ℤ) (position : String) : ℤ × ℤ :=
  let padding : ℤ := 40
  if position = "top-right" then (w - lw - padding, padding)
  else if position = "top-left" then (padding, padding)
  else if position = "bottom-right" then (w - lw - padding, h - lh - padding)
  else if position = "bottom-left" then (padding, h - lh - padding)
  else (w - lw - padding, padding)

/-- The fixed format catalog tested by the generation loop
(`backend/api/media_studio.py` line 130). -/
def catalogFormats : List String := ["16:9", "1:1", "9:16", "4:5"]

/-- The `dimensions` table with its `.get` default
(`backend/api/media_studio.py` lines 134-148). -/
def dimensionsFor (f : String) : ℕ × ℕ :=
  if f = "16:9" then (1200, 675)
  else if f = "1:1" then (1080, 1080)
  else if f = "9:16" then (1080, 1920)
  else if f = "4:5" then (1080, 1350)
  else (1080, 1080)

/-- `formats.split(",")` over the characters of the string (Python
`str.split` with an explicit separator keeps empty pieces). -/
def splitCommaChars : List Char → List Char → List String
  | [], acc => [String.mk acc.reverse]
  | c :: rest, acc =>
    if c = ',' then String.mk acc.reverse :: splitCommaChars rest []
    else splitCommaChars rest (c :: acc)

/-- Python `str.strip()`: drop leading and trailing whitespace. -/
def stripChars (l : List Char) : List Char :=
  ((l.dropWhile Char.isWhitespace).reverse.dropWhile Char.isWhitespace).reverse

/-- `format_list = [f.strip() for f in formats.split(",")]`
(`backend/api/media_studio.py` line 93). -/
def parseFormats (s : String) : List String :=
  (splitCommaChars s.data []).map (fun piece => String.mk (stripChars piece.data))

/-- One entry of the `results` list (`backend/api/media_studio.py` lines
171-178): format label, its dimensions, and the encoded data URL. -/
structure Asset where
  format : String
  width : ℕ
  height : ℕ
  data : String
deriving DecidableEq, Repr

/-- The JSON response of `/api/generate` (`backend/api/media_studio.py`
lines 190-206): on success `{"success": True, "assets": results,
"count": len(results)}`; when an exception escapes the `try` block, a
500 response `{"success": False, "error": str(e)}` carrying no assets
and no count. -/
structure GenerateResponse where
  success : Bool
  assets : List Asset
  count : Option ℕ
  error : Option String
deriving DecidableEq, Repr

/-- Whether an `Except` value is a success. -/
def exceptOk {ε α : Type} : Except ε α → Bool
  | Except.ok _ => true
  | Except.error _ => false

/-- The per-format generation loop (`backend/api/media_studio.py` lines
129-182), relative to an abstract per-format generator `gen` standing
for `processor.generate_asset` plus the read-back and base64 encoding of
the produced file, any of which may raise (`Except.error`).  A label
outside the catalog is skipped (`continue`, line 131); the whole loop
runs inside the single `try` of line 91, so an exception propagates out
and discards the assets of the formats already processed. -/
def runFormats (gen : String → Except String String) :
    List String → Except String (List Asset)
  | [] => Except.ok []
  | f :: rest =>
    if f ∈ catalogFormats then
      match gen f with
      | Except.error e => Except.error e
      | Except.ok encoded =>
        match runFormats gen rest with
        | Except.error e => Except.error e
        | Except.ok l =>
          Except.ok ({ format := f, width := (dimensionsFor f).1,
                       height := (dimensionsFor f).2, data := encoded } :: l)
    else runFormats gen rest

/-- `generate_assets` (`backend/api/media_studio.py` lines 91-206) at the
level of format handling: parse the requested labels, run the loop, and
build the response; the `except` arm of lines 197-206 answers
`success: False` with no assets and no count. -/
def generateAssets (gen : String → Except String String) (formats : String) :
    GenerateResponse :=
  match runFormats gen (parseFormats formats) with
  | Except.ok l => { success := true, assets := l, count := some l.length, error := none }
  | Except.error e => { success := false, assets := [], count := none, error := some e }

/-- What the pipeline stamps on the cropped canvas for the watermark:
nothing, a pasted image logo, or the text watermark. -/
inductive LogoStep
  | noLogo
  | imageLogo (path : String)
  | textWatermark (text : String) (opacity : ℚ)
deriving DecidableEq

/-- The well-known default watermark path of `logo_handler.add_logo`
(`backend/services/logo_handler.py` line 267). -/
def defaultLogoPath : String := "static/logo/mako_logo.png"

/-- The logo handling of a pipeline run: the API materializes a temp
logo file only when the logo is enabled and logo bytes were uploaded
(`backend/api/media_studio.py` lines 116-120), passes it as `logo_path
if logo_enabled else None` (line 162), and `ImageProcessor.
generate_asset` runs its logo step only under `if logo_path:`
(`backend/services/image_processor.py` lines 111-120), pasting the
uploaded logo; with no `logo_path` nothing is stamped. -/
def pipelineLogoStep (logoEnabled : Bool) (logoBytes : Option String) : LogoStep :=
  let logoPath : Option String :=
    if logoEnabled && logoBytes.isSome then some "/tmp/logo.png" else none
  match (if logoEnabled then logoPath else none) with
  | some p => LogoStep.imageLogo p
  | none => LogoStep.noLogo

/-- `logo_handler.add_logo` (`backend/services/logo_handler.py` lines
241-285): with no explicit path, resolve the default
`static/logo/mako_logo.png`; if that file exists, paste the image logo,
otherwise fall back to the `KESHET` text watermark at 35% opacity.
Filesystem existence is abstracted as the predicate `pathIsFile`.  (The
file-like `BytesIO` branch of lines 269-275 is not modelled; the claims
concern the path branches.) -/
def addLogoResolve (pathIsFile : String → Bool) (logoPath : Option String) : LogoStep :=
  let path := logoPath.getD defaultLogoPath
  if pathIsFile path then LogoStep.imageLogo path
  else LogoStep.textWatermark "KESHET" (35 / 100)

/-- `Image.alpha_composite(base, overlay)` per pixel, modelled from the
spec formula `result = base*(1-a) + overlay*a` (§4.3) with truncating
integer arithmetic over 0..255 samples; `alpha_composite` itself is PIL
library code.  The base canvas is opaque in every use. -/
def alphaComposite (base over : Img) : Img :=
  { base with
    pix := fun x y =>
      let pb := base.pix x y
      let po := over.pix x y
      { r := (po.r * po.a + pb.r * (255 - po.a)) / 255
        g := (po.g * po.a + pb.g * (255 - po.a)) / 255
        b := (po.b * po.a + pb.b * (255 - po.a)) / 255
        a := 255 } }

/-- `base.paste(logo, pos, logo)`: inside the logo's bounding box the
samples blend through the logo's own alpha mask (same per-channel
formula as `alphaComposite`); pixels outside the box are untouched. -/
def pasteMasked (base logo : Img) (pos : ℤ × ℤ) : Img :=
  { base with
    pix := fun x y =>
      let dx := (x : ℤ) - pos.1
      let dy := (y : ℤ) - pos.2
      if 0 ≤ dx ∧ dx < (logo.width : ℤ) ∧ 0 ≤ dy ∧ dy < (logo.height : ℤ) then
        let pl := logo.pix dx.toNat dy.toNat
        let pb := base.pix x y
        { r := (pl.r * pl.a + pb.r * (255 - pl.a)) / 255
          g := (pl.g * pl.a + pb.g * (255 - pl.a)) / 255
          b := (pl.b * pl.a + pb.b * (255 - pl.a)) / 255
          a := pb.a }
      else base.pix x y }

/-- A heap of PIL image objects: python names hold ids into `mem`.
Allocation (`Image.new`, `.copy()`, `.convert(...)`, `.resize(...)`,
`Image.alpha_composite(...)`) returns a fresh id; in-place operations
(`draw.*`, `.paste(...)`) write through an existing id.  This makes the
aliasing structure of the source explicit, so that "the caller's canvas
is unchanged" is a statement about `mem` at the caller's id. -/
structure Heap where
  next : ℕ
  mem : ℕ → Img

/-- Allocate a fresh image object. -/
def Heap.alloc (s : Heap) (i : Img) : Heap × ℕ :=
  ({ next := s.next + 1,
     mem := fun n => if n = s.next then i else s.mem n }, s.next)

/-- Overwrite an existing image object in place. -/
def Heap.write (s : Heap) (j : ℕ) (i : Img) : Heap :=
  { s with mem := fun n => if n = j then i else s.mem n }

/-- `add_text_overlay` (`backend/services/image_processor.py` lines
136-241) in the heap model: `img = image.copy()` allocates a copy;
`overlay = Image.new('RGBA', img.size, (0,0,0,0))` allocates the
transparent overlay; every `draw.rectangle`, `draw.text` and
`draw.rounded_rectangle` of lines 195-237 mutates the overlay in place -
their combined effect is the abstract painter `draws`, whose target is
only ever the overlay; finally `Image.alpha_composite(img.convert(
'RGBA'), overlay).convert('RGB')` allocates the result.  The caller's
`image` is never written. -/
def addTextOverlayHeap (draws : Img → Img) (s : Heap) (imageId : ℕ) : Heap × ℕ :=
  let image := s.mem imageId
  let a1 := s.alloc image
  let s1 := a1.1
  let imgId := a1.2
  let a2 := s1.alloc (blankRGBA (s1.mem imgId).width (s1.mem imgId).height)
  let s2 := a2.1
  let overlayId := a2.2
  let s3 := s2.write overlayId (draws (s2.mem overlayId))
  s3.alloc (convertRGB (alphaComposite (convertRGBA (s3.mem imgId)) (s3.mem overlayId)))

/-- `add_image_logo`, steps 5-6 (`backend/services/logo_handler.py`
lines 208-219), in the heap model: `image.convert("RGBA")` allocates
(only when the mode differs; otherwise the local name keeps aliasing the
caller's object), `result = image.copy()` allocates the copy that "avoid
modifying original", `result.paste(logo, pos, logo)` writes through
`result` only, and the final `.convert("RGB")` allocates.  `logo` is the
already prepared and resized logo value. -/
def addImageLogoHeap (logo : Img) (pos : ℤ × ℤ) (s : Heap) (imageId : ℕ) : Heap × ℕ :=
  let a1 := if (s.mem imageId).mode = Mode.rgba
    then (s, imageId)
    else s.alloc (convertRGBA (s.mem imageId))
  let s1 := a1.1
  let srcId := a1.2
  let a2 := s1.alloc (s1.mem srcId)
  let s2 := a2.1
  let resId := a2.2
  let s3 := s2.write resId (pasteMasked (s2.mem resId) logo pos)
  s3.alloc (convertRGB (s3.mem resId))

/-- Concrete 2×1 logo: a pure white pixel next to an opaque black pixel
(counterexample data). -/
def exLogo : Img :=
  { mode := Mode.rgba, width := 2, height := 1,
    pix := fun x _ => if x = 0 then ⟨255, 255, 255, 255⟩ else ⟨0, 0, 0, 255⟩ }

/-- Concrete 1×1 image of alpha 3 (counterexample data). -/
def exAlphaImg : Img :=
  { mode := Mode.rgba, width := 1, height := 1, pix := fun _ _ => ⟨0, 0, 0, 3⟩ }

/-- A generator that fails for the 16:9 format only. -/
def genFailWide : String → Except String String :=
  fun f => if f = "16:9" then Except.error "boom" else Except.ok "data"

/-- A generator that always succeeds. -/
def genAllOk : String → Except String String :=
  fun f => Except.ok (String.append "data-" f)

/-- Concrete 1×1 base image (witness data). -/
def witImg : Img :=
  { mode := Mode.rgb, width := 1, height := 1, pix := fun _ _ => ⟨1, 2, 3, 255⟩ }

/-- A one-object heap holding `witImg` at id 0 (witness data). -/
def witHeap : Heap :=
  { next := 1, mem := fun _ => witImg }

example : smartCropBox 1200 800 1200 675 = (0, 62, 1200, 62 + 675) := by decide
example : smartCropBox 1200 800 1080 1920 = (375, 0, 375 + 450, 800) := by decide
example : parseFormats "16:9, bogus ,1:1" = ["16:9", "bogus", "1:1"] := by decide

/-- The source's float comparison `target_ratio > img_ratio` agrees with
the cross-multiplied test used in `smartCropBox`. -/
theorem aspect_gt_iff (w h tw th : ℕ) (hh : 0 < h) (hth : 0 < th) :
    (tw : ℚ) / (th : ℚ) > (w : ℚ) / (h : ℚ) ↔ tw * h > w * th := by
  rw [gt_iff_lt, div_lt_div_iff₀ (by exact_mod_cast hh) (by exact_mod_cast hth)]
  exact_mod_cast Iff.rfl

/-- The source's `int(img.width / target_ratio)` agrees with the natural
division used in `smartCropBox`. -/
theorem floor_width_div_aspect (w tw th : ℕ) :
    (⌊(w : ℚ) / ((tw : ℚ) / (th : ℚ))⌋).toNat = w * th / tw := by
  rw [div_div_eq_mul_div, Int.floor_toNat]
  rw [show ((w : ℚ) * th = ((w * th : ℕ) : ℚ)) by push_cast; ring]
  exact Nat.floor_div_eq_div (w * th) tw

/-- The source's `int(img.height * target_ratio)` agrees with the natural
division used in `smartCropBox`. -/
theorem floor_height_mul_aspect (h tw th : ℕ) :
    (⌊(h : ℚ) * ((tw : ℚ) / (th : ℚ))⌋).toNat = h * tw / th := by
  rw [mul_div_assoc', Int.floor_toNat]
  rw [show ((h : ℚ) * tw = ((h * tw : ℕ) : ℚ)) by push_cast; ring]
  exact Nat.floor_div_eq_div (h * tw) th

/-- C2: for every source image with positive width and height and every
positive target width/height, `smart_crop` selects the crop box as
follows: if `targetWidth/targetHeight > width/height` it crops a
vertically centered box of size `(width, floor(width / targetAspect))`
with vertical offset `(height - newHeight) / 2` (truncating integer
division); otherwise it crops a horizontally centered box of size
`(floor(height * targetAspect), height)`. -/
theorem smart_crop_box_selection (w h tw th : ℕ)
    (hw : 0 < w) (hh : 0 < h) (htw : 0 < tw) (hth : 0 < th) :
    ((tw : ℚ) / (th : ℚ) > (w : ℚ) / (h : ℚ) →
      smartCropBox w h tw th =
        (0, (h - (⌊(w : ℚ) / ((tw : ℚ) / (th : ℚ))⌋).toNat) / 2, w,
         (h - (⌊(w : ℚ) / ((tw : ℚ) / (th : ℚ))⌋).toNat) / 2
           + (⌊(w : ℚ) / ((tw : ℚ) / (th : ℚ))⌋).toNat))
    ∧ (¬ ((tw : ℚ) / (th : ℚ) > (w : ℚ) / (h : ℚ)) →
      smartCropBox w h tw th =
        ((w - (⌊(h : ℚ) * ((tw : ℚ) / (th : ℚ))⌋).toNat) / 2, 0,
         (w - (⌊(h : ℚ) * ((tw : ℚ) / (th : ℚ))⌋).toNat) / 2
           + (⌊(h : ℚ) * ((tw : ℚ) / (th : ℚ))⌋).toNat, h)) := by
  have _ := hw
  constructor
  · intro hgt
    have hc : tw * h > w * th := (aspect_gt_iff w h tw th hh hth).mp hgt
    rw [floor_width_div_aspect]
    simp only [smartCropBox, if_pos hc]
  · intro hle
    have hc : ¬ (tw * h > w * th) := fun hcc =>
      hle ((aspect_gt_iff w h tw th hh hth).mpr hcc)
    rw [floor_height_mul_aspect]
    simp only [smartCropBox, if_neg hc]

theorem smart_crop_box_selection_witness :
    smartCropBox 1200 800 1200 675 =
      (0, (800 - (⌊((1200 : ℕ) : ℚ) / (((1200 : ℕ) : ℚ) / ((675 : ℕ) : ℚ))⌋).toNat) / 2,
       1200,
       (800 - (⌊((1200 : ℕ) : ℚ) / (((1200 : ℕ) : ℚ) / ((675 : ℕ) : ℚ))⌋).toNat) / 2
         + (⌊((1200 : ℕ) : ℚ) / (((1200 : ℕ) : ℚ) / ((675 : ℕ) : ℚ))⌋).toNat) :=
  (smart_crop_box_selection 1200 800 1200 675
      (by decide) (by decide) (by decide) (by decide)).1 (by norm_num)

/-- C3: for every source image with positive dimensions and every
positive target `(width, height)`, the canvas returned by `smart_crop`
has exactly the target dimensions, regardless of source aspect ratio and
of rounding in the intermediate crop box (the final
`resize((target_width, target_height))` fixes the size). -/
theorem smart_crop_output_size (i : Size) (tw th : ℕ)
    (hw : 0 < i.width) (hh : 0 < i.height) (htw : 0 < tw) (hth : 0 < th) :
    (smartCrop i tw th).width = tw ∧ (smartCrop i tw th).height = th :=
  ⟨rfl, rfl⟩

theorem smart_crop_output_size_witness :
    (smartCrop ⟨1200, 800⟩ 1080 1920).width = 1080 ∧
      (smartCrop ⟨1200, 800⟩ 1080 1920).height = 1920 :=
  smart_crop_output_size ⟨1200, 800⟩ 1080 1920
    (by decide) (by decide) (by decide) (by decide)

/-- C4 counterexample: with the default `feather = 2`, the blur of the
alpha channel breaks the claimed per-pixel guarantee.  On a 2×1 logo
holding a pure white pixel beside an opaque black pixel, the white pixel
(all channels above threshold 240) ends with alpha 102, not 0, and the
black pixel's alpha changes from 255 to 153 instead of staying
unchanged. -/
theorem remove_white_background_feather_cex :
    ((removeWhiteBackground 240 2 exLogo).pix 0 0).a = 102 ∧
      ((removeWhiteBackground 240 2 exLogo).pix 1 0).a = 153 ∧
      exLogo.pix 0 0 = ⟨255, 255, 255, 255⟩ ∧
      exLogo.pix 1 0 = ⟨0, 0, 0, 255⟩ := by decide

/-- C4 (amended): the masking step of background removal - the whole of
`remove_white_background` when `feather = 0` - sets alpha to 0 for
exactly those pixels whose R, G and B are all strictly greater than the
threshold and leaves every other pixel's alpha unchanged; in particular,
with threshold 240, a `(255,255,255)` pixel ends with alpha 0 and a
pixel with a zero channel keeps its (RGBA-converted) alpha.  With the
default `feather = 2` the alpha channel is additionally blurred, mixing
neighbouring alphas (see the counterexample). -/
theorem remove_white_background_mask_spec (threshold : ℕ) (i : Img) (x y : ℕ) :
    ((removeWhiteBackground threshold 0 i).pix x y
      = (let p := (convertRGBA i).pix x y
         if threshold < p.r ∧ threshold < p.g ∧ threshold < p.b then
           { p with a := 0 }
         else p))
    ∧ ((i.pix x y).r = 255 ∧ (i.pix x y).g = 255 ∧ (i.pix x y).b = 255 →
        ((removeWhiteBackground 240 0 i).pix x y).a = 0)
    ∧ ((i.pix x y).r = 0 →
        ((removeWhiteBackground 240 0 i).pix x y).a = ((convertRGBA i).pix x y).a) := by
  refine ⟨rfl, fun hwh => ?_, fun hz => ?_⟩
  · by_cases hm : i.mode = Mode.rgb <;>
      simp [removeWhiteBackground, removeWhiteMask, convertRGBA, hm,
        hwh.1, hwh.2.1, hwh.2.2]
  · by_cases hm : i.mode = Mode.rgb <;>
      simp [removeWhiteBackground, removeWhiteMask, convertRGBA, hm, hz]

/-- C5 counterexample: the opacity step `int(x * opacity)` truncates
toward zero, it does not round to the nearest channel value: an alpha
sample of 3 at opacity `3/5` yields `int(1.8) = 1`, while rounding to
the nearest value gives 2. -/
theorem scale_alpha_truncates_cex :
    ((scaleAlpha (3 / 5) exAlphaImg).pix 0 0).a = 1 ∧
      round (((exAlphaImg.pix 0 0).a : ℚ) * (3 / 5)) = 2 := by
  constructor
  · show (⌊((3 : ℕ) : ℚ) * (3 / 5)⌋).toNat = 1
    norm_num
  · show round (((3 : ℕ) : ℚ) * (3 / 5)) = 2
    rw [round_eq]
    norm_num

/-- C5 (amended): for every prepared logo and opacity factor in `[0,1]`,
the opacity-scaling step of the logo-overlay path maps each alpha sample
`a` to `floor(a * factor)` (truncating, never rounding up), leaves the
color channels unchanged, and never increases alpha; it is applied after
background removal and feathering (`add_image_logo` step 3 follows
`prepare_logo`). -/
theorem scale_alpha_floor_spec (opacity : ℚ) (i : Img) (x y : ℕ)
    (h0 : 0 ≤ opacity) (h1 : opacity ≤ 1) :
    ((scaleAlpha opacity i).pix x y).a = (⌊((i.pix x y).a : ℚ) * opacity⌋).toNat
    ∧ ((scaleAlpha opacity i).pix x y).a ≤ (i.pix x y).a
    ∧ ((scaleAlpha opacity i).pix x y).r = (i.pix x y).r
    ∧ ((scaleAlpha opacity i).pix x y).g = (i.pix x y).g
    ∧ ((scaleAlpha opacity i).pix x y).b = (i.pix x y).b := by
  have _ := h0
  refine ⟨rfl, ?_, rfl, rfl, rfl⟩
  show (⌊((i.pix x y).a : ℚ) * opacity⌋).toNat ≤ (i.pix x y).a
  have hle : ((i.pix x y).a : ℚ) * opacity ≤ ((i.pix x y).a : ℚ) := by
    calc ((i.pix x y).a : ℚ) * opacity ≤ ((i.pix x y).a : ℚ) * 1 :=
          mul_le_mul_of_nonneg_left h1 (by positivity)
      _ = ((i.pix x y).a : ℚ) := mul_one _
  have h2 : ⌊((i.pix x y).a : ℚ) * opacity⌋ ≤ ((i.pix x y).a : ℤ) := by
    calc ⌊((i.pix x y).a : ℚ) * opacity⌋ ≤ ⌊((i.pix x y).a : ℚ)⌋ :=
          Int.floor_le_floor hle
      _ = ((i.pix x y).a : ℤ) := Int.floor_natCast _
  exact Int.toNat_le.mpr h2

theorem scale_alpha_floor_spec_witness :
    ((scaleAlpha (1 / 2) exAlphaImg).pix 0 0).a
        = (⌊((exAlphaImg.pix 0 0).a : ℚ) * (1 / 2)⌋).toNat
    ∧ ((scaleAlpha (1 / 2) exAlphaImg).pix 0 0).a ≤ (exAlphaImg.pix 0 0).a
    ∧ ((scaleAlpha (1 / 2) exAlphaImg).pix 0 0).r = (exAlphaImg.pix 0 0).r
    ∧ ((scaleAlpha (1 / 2) exAlphaImg).pix 0 0).g = (exAlphaImg.pix 0 0).g
    ∧ ((scaleAlpha (1 / 2) exAlphaImg).pix 0 0).b = (exAlphaImg.pix 0 0).b :=
  scale_alpha_floor_spec (1 / 2) exAlphaImg 0 0 (by norm_num) (by norm_num)

/-- C6: the text layout computes `totalTextHeight = titleHeight +
(ctaHeight + 30px gap when a CTA is present, else 0) + 40`, and resolves
the panel's vertical start as: anchor `top` gives 15% of canvas height,
`bottom` gives 85% of canvas height minus `totalTextHeight`, `center`
gives `(canvasHeight - totalTextHeight) // 2`, and any unknown anchor
resolves the same as `center`. -/
theorem text_layout_vertical_spec (h titleH : ℕ) (cta : Option ℕ) (anchor : String) :
    (totalTextHeight titleH cta
      = titleH + (match cta with | some c => c + 30 | none => 0) + 40)
    ∧ yStart h (totalTextHeight titleH cta) "top" = (h : ℚ) * (15 / 100)
    ∧ yStart h (totalTextHeight titleH cta) "bottom"
        = (h : ℚ) * (85 / 100) - (totalTextHeight titleH cta : ℚ)
    ∧ yStart h (totalTextHeight titleH cta) "center"
        = ((((h : ℤ) - (totalTextHeight titleH cta : ℤ)).fdiv 2 : ℤ) : ℚ)
    ∧ (anchor ≠ "top" → anchor ≠ "bottom" →
        yStart h (totalTextHeight titleH cta) anchor
          = yStart h (totalTextHeight titleH cta) "center") := by
  refine ⟨rfl, by simp [yStart], by simp [yStart], by simp [yStart],
    fun h1 h2 => by simp [yStart, h1, h2]⟩

theorem text_layout_vertical_spec_witness :
    (totalTextHeight 80 (some 40)
      = 80 + (match some 40 with | some c => c + 30 | none => 0) + 40)
    ∧ yStart 675 (totalTextHeight 80 (some 40)) "top" = ((675 : ℕ) : ℚ) * (15 / 100)
    ∧ yStart 675 (totalTextHeight 80 (some 40)) "bottom"
        = ((675 : ℕ) : ℚ) * (85 / 100) - ((totalTextHeight 80 (some 40) : ℕ) : ℚ)
    ∧ yStart 675 (totalTextHeight 80 (some 40)) "center"
        = (((((675 : ℕ) : ℤ) - ((totalTextHeight 80 (some 40) : ℕ) : ℤ)).fdiv 2 : ℤ) : ℚ)
    ∧ ("middle" ≠ "top" → "middle" ≠ "bottom" →
        yStart 675 (totalTextHeight 80 (some 40)) "middle"
          = yStart 675 (totalTextHeight 80 (some 40)) "center") :=
  text_layout_vertical_spec 675 80 (some 40) "middle"

/-- C7: for logos strictly smaller than the canvas minus 80px in each
dimension, corner placement keeps the logo's bounding box fully inside
the canvas, at exactly 40px padding from the two edges of the chosen
corner, and any unrecognized corner value is placed identically to
`top-right`. -/
theorem logo_placement_spec (w h lw lh : ℤ) (position : String)
    (hlw0 : 0 < lw) (hlh0 : 0 < lh) (hlw : lw < w - 80) (hlh : lh < h - 80) :
    (0 ≤ (logoPlacement w h lw lh position).1
      ∧ 0 ≤ (logoPlacement w h lw lh position).2
      ∧ (logoPlacement w h lw lh position).1 + lw ≤ w
      ∧ (logoPlacement w h lw lh position).2 + lh ≤ h)
    ∧ logoPlacement w h lw lh "top-left" = (40, 40)
    ∧ logoPlacement w h lw lh "top-right" = (w - lw - 40, 40)
    ∧ logoPlacement w h lw lh "bottom-left" = (40, h - lh - 40)
    ∧ logoPlacement w h lw lh "bottom-right" = (w - lw - 40, h - lh - 40)
    ∧ (position ≠ "top-right" → position ≠ "top-left" →
        position ≠ "bottom-right" → position ≠ "bottom-left" →
        logoPlacement w h lw lh position = logoPlacement w h lw lh "top-right") := by
  refine ⟨?_, by simp [logoPlacement], by simp [logoPlacement],
    by simp [logoPlacement], by simp [logoPlacement],
    fun h1 h2 h3 h4 => by simp [logoPlacement, h1, h2, h3, h4]⟩
  simp only [logoPlacement]
  split_ifs <;> refine ⟨?_, ?_, ?_, ?_⟩ <;> simp <;> omega

theorem logo_placement_spec_witness :
    (0 ≤ (logoPlacement 1000 500 100 50 "weird").1
      ∧ 0 ≤ (logoPlacement 1000 500 100 50 "weird").2
      ∧ (logoPlacement 1000 500 100 50 "weird").1 + 100 ≤ 1000
      ∧ (logoPlacement 1000 500 100 50 "weird").2 + 50 ≤ 500)
    ∧ logoPlacement 1000 500 100 50 "top-left" = (40, 40)
    ∧ logoPlacement 1000 500 100 50 "top-right" = (1000 - 100 - 40, 40)
    ∧ logoPlacement 1000 500 100 50 "bottom-left" = (40, 500 - 50 - 40)
    ∧ logoPlacement 1000 500 100 50 "bottom-right" = (1000 - 100 - 40, 500 - 50 - 40)
    ∧ ("weird" ≠ "top-right" → "weird" ≠ "top-left" →
        "weird" ≠ "bottom-right" → "weird" ≠ "bottom-left" →
        logoPlacement 1000 500 100 50 "weird" = logoPlacement 1000 500 100 50 "top-right") :=
  logo_placement_spec 1000 500 100 50 "weird"
    (by decide) (by decide) (by decide) (by decide)

/-- When every recognized format in the list generates successfully, the
loop returns assets whose formats are exactly the catalog labels of the
request, in order. -/
theorem runFormats_ok_all (gen : String → Except String String) (l : List String)
    (hall : ∀ f ∈ l, f ∈ catalogFormats → exceptOk (gen f) = true) :
    ∃ assets, runFormats gen l = Except.ok assets ∧
      assets.map Asset.format = l.filter (fun f => decide (f ∈ catalogFormats)) := by
  induction l with
  | nil => exact ⟨[], rfl, rfl⟩
  | cons f rest ih =>
    obtain ⟨as, has, hmap⟩ := ih (fun g hg hcat => hall g (List.mem_cons_of_mem f hg) hcat)
    by_cases hf : f ∈ catalogFormats
    · have hok := hall f (List.mem_cons_self f rest) hf
      cases hgen : gen f with
      | error e => rw [hgen] at hok; simp [exceptOk] at hok
      | ok d =>
        refine ⟨⟨f, (dimensionsFor f).1, (dimensionsFor f).2, d⟩ :: as, ?_, ?_⟩
        · simp [runFormats, hf, hgen, has]
        · simp [List.filter_cons, hf, hmap]
    · refine ⟨as, ?_, ?_⟩
      · simp [runFormats, hf, has]
      · simp [List.filter_cons, hf, hmap]

/-- If any recognized format in the list fails to generate, the whole
loop raises: the exception propagates out of the single `try`. -/
theorem runFormats_error_of (gen : String → Except String String) (l : List String)
    (f : String) (hfmem : f ∈ l) (hfcat : f ∈ catalogFormats)
    (hfail : exceptOk (gen f) = false) :
    exceptOk (runFormats gen l) = false := by
  induction l with
  | nil => cases hfmem
  | cons g rest ih =>
    rcases List.mem_cons.mp hfmem with hfg | hfr
    · subst hfg
      cases hgen : gen f with
      | error e => simp [runFormats, hfcat, hgen, exceptOk]
      | ok d => rw [hgen] at hfail; simp [exceptOk] at hfail
    · by_cases hg : g ∈ catalogFormats
      · cases hgen : gen g with
        | error e => simp [runFormats, hg, hgen, exceptOk]
        | ok d =>
          have hr := ih hfr
          cases hrest : runFormats gen rest with
          | error e => simp [runFormats, hg, hgen, hrest, exceptOk]
          | ok l2 => rw [hrest] at hr; simp [exceptOk] at hr
      · simpa [runFormats, hg] using ih hfr

/-- C1 (amended): `generate_assets` runs all requested formats inside
one `try` block, so a failure while generating any recognized format
aborts the whole request - the response succeeds exactly when every
recognized requested format generates successfully, and a failed
response carries no partial assets and no count. -/
theorem generate_assets_abort_on_failure (gen : String → Except String String)
    (formats : String) :
    ((generateAssets gen formats).success = true ↔
      ∀ f ∈ parseFormats formats, f ∈ catalogFormats → exceptOk (gen f) = true)
    ∧ ((generateAssets gen formats).success = false →
        (generateAssets gen formats).assets = []
          ∧ (generateAssets gen formats).count = none) := by
  constructor
  · constructor
    · intro hs f hf hcat
      cases hrun : runFormats gen (parseFormats formats) with
      | error e => simp [generateAssets, hrun] at hs
      | ok l =>
        by_contra hne
        have hfail : exceptOk (gen f) = false := by
          revert hne; cases exceptOk (gen f) <;> simp
        have herr := runFormats_error_of gen (parseFormats formats) f hf hcat hfail
        rw [hrun] at herr
        simp [exceptOk] at herr
    · intro hall
      obtain ⟨as, has, -⟩ := runFormats_ok_all gen (parseFormats formats) hall
      simp [generateAssets, has]
  · intro hfalse
    cases hrun : runFormats gen (parseFormats formats) with
    | ok l => simp [generateAssets, hrun] at hfalse
    | error e => simp [generateAssets, hrun]

theorem generate_assets_abort_witness :
    (generateAssets genAllOk "16:9").success = true :=
  (generate_assets_abort_on_failure genAllOk "16:9").1.mpr (by decide)

/-- C1 counterexample: with a generator that fails for `16:9` but would
succeed for `1:1`, requesting `"16:9,1:1"` fails as a whole and returns
no assets at all - the failing format is not isolated and the surviving
format's asset is not produced, although not every requested format
failed. -/
theorem generate_assets_no_isolation_cex :
    (generateAssets genFailWide "16:9,1:1").success = false
    ∧ (generateAssets genFailWide "16:9,1:1").assets = []
    ∧ exceptOk (genFailWide "1:1") = true := by decide

/-- C8: the pipeline silently skips every requested label outside the
fixed catalog `{16:9, 1:1, 9:16, 4:5}` - when per-format generation
succeeds, the response succeeds, produces one asset per catalog label of
the request (in order), and reports the number of assets actually
produced. -/
theorem generate_assets_skips_unknown (gen : String → Except String String)
    (formats : String) (hok : ∀ f, exceptOk (gen f) = true) :
    (generateAssets gen formats).success = true
    ∧ (generateAssets gen formats).assets.map Asset.format
        = (parseFormats formats).filter (fun f => decide (f ∈ catalogFormats))
    ∧ (generateAssets gen formats).count
        = some ((generateAssets gen formats).assets.length) := by
  obtain ⟨as, has, hmap⟩ :=
    runFormats_ok_all gen (parseFormats formats) (fun f _ _ => hok f)
  refine ⟨?_, ?_, ?_⟩ <;> simp [generateAssets, has, hmap]

theorem generate_assets_skips_unknown_witness :
    (generateAssets genAllOk "16:9,bogus,1:1").success = true
    ∧ (generateAssets genAllOk "16:9,bogus,1:1").assets.map Asset.format
        = ["16:9", "1:1"]
    ∧ (generateAssets genAllOk "16:9,bogus,1:1").count = some 2 := by
  have h := generate_assets_skips_unknown genAllOk "16:9,bogus,1:1" (fun f => rfl)
  exact ⟨h.1, h.2.1.trans (by decide), h.2.2.trans (by decide)⟩

/-- C9 counterexample: a pipeline run with the logo enabled but no logo
bytes supplied stamps nothing at all - `generate_asset` guards its whole
logo step with `if logo_path:` and never consults the default asset path
or the text-watermark fallback (those live in `logo_handler.add_logo`,
which the pipeline does not call). -/
theorem pipeline_logo_skip_cex :
    pipelineLogoStep true none = LogoStep.noLogo
    ∧ ∀ t o, pipelineLogoStep true none ≠ LogoStep.textWatermark t o :=
  ⟨rfl, fun _ _ h => LogoStep.noConfusion h⟩

/-- C9 (amended): the helper `logo_handler.add_logo` resolves the
watermark from the fixed asset path `static/logo/mako_logo.png` when no
path is supplied and, when that file is absent, falls back to the plain
`KESHET` text watermark at 35% opacity rather than failing; but the
pipeline itself (`ImageProcessor.generate_asset`) never calls this
helper - with the logo enabled and no logo bytes it skips the logo step
entirely, so no watermark is applied. -/
theorem add_logo_fallback_spec (pathIsFile : String → Bool) (p : Option String) :
    (pathIsFile (p.getD defaultLogoPath) = false →
      addLogoResolve pathIsFile p = LogoStep.textWatermark "KESHET" (35 / 100))
    ∧ (pathIsFile (p.getD defaultLogoPath) = true →
      addLogoResolve pathIsFile p = LogoStep.imageLogo (p.getD defaultLogoPath))
    ∧ pipelineLogoStep true none = LogoStep.noLogo := by
  refine ⟨fun hf => ?_, fun ht => ?_, rfl⟩
  · simp [addLogoResolve, hf]
  · simp [addLogoResolve, ht]

/-- C10: the text-overlay and image-logo compositing operations leave
the caller's input canvas completely unchanged: in the heap model of PIL
objects, the only in-place writes (to the fresh overlay, respectively to
the fresh copy `result`) hit ids allocated during the call, never the
caller's id. -/
theorem compositing_preserves_caller_canvas (draws : Img → Img) (logo : Img)
    (pos : ℤ × ℤ) (s : Heap) (imageId : ℕ) (hid : imageId < s.next) :
    (addTextOverlayHeap draws s imageId).1.mem imageId = s.mem imageId
    ∧ (addImageLogoHeap logo pos s imageId).1.mem imageId = s.mem imageId := by
  constructor
  · simp only [addTextOverlayHeap, Heap.alloc, Heap.write]
    repeat rw [if_neg (by omega)]
  · by_cases hm : (s.mem imageId).mode = Mode.rgba
    · simp only [addImageLogoHeap, Heap.alloc, Heap.write, hm, if_pos]
      repeat rw [if_neg (by omega)]
    · simp only [addImageLogoHeap, Heap.alloc, Heap.write, hm, if_neg,
        Bool.false_eq_true, not_false_eq_true]
      repeat rw [if_neg (by omega)]

theorem compositing_preserves_caller_canvas_witness :
    (addTextOverlayHeap id witHeap 0).1.mem 0 = witHeap.mem 0
    ∧ (addImageLogoHeap witImg (0, 0) witHeap 0).1.mem 0 = witHeap.mem 0 :=
  compositing_preserves_caller_canvas id witImg (0, 0) witHeap 0 (by decide)

end MediaStudio
